import Mathlib

/-!
Verification of the live voice pipeline of the DermaGenius browser client.

The definitions below are shallow embeddings of the TypeScript source:
* `src/services/geminiService.ts` — PCM codec (`createBlob`, `decodeAudioData`),
  retry wrapper (`withRetry`, `isRateLimitError`), live-session system
  instruction assembly (`startLiveSession`).
* the chat screen component — microphone capture, playback scheduling,
  transcript aggregation and teardown (`startMic` / `stopMic` and the
  live-session callbacks).

Modelling conventions:
* JavaScript numbers that hold audio samples or clock times are modelled as
  rationals (`ℚ`); float rounding is not modelled.
* Machine 16-bit conversion (`Int16Array` element assignment, i.e. `ToInt16`)
  is modelled explicitly: truncate toward zero, reduce mod 2^16, reinterpret
  as a signed value.
* The base64 transport (`btoa`/`atob` over `String.fromCharCode`/`charCodeAt`)
  is an exact bijection on byte lists and is elided: blobs carry the byte list
  directly.
* React `useState` values captured by a closure at handler-creation time are
  passed explicitly as a `SessionClosures` record, distinct from the current
  component state (`LiveState`); functional updates (`set(prev => ...)`) read
  the current state.  `useRef` cells (`nextStartTimeRef`, `audioSourcesRef`)
  always read the current state.
-/

/-! ### 16-bit PCM primitives -/

/-- JavaScript truncation toward zero of a rational number
(the integer-conversion step of `ToInt16`). -/
def truncQ (q : ℚ) : ℤ := if q < 0 then ⌈q⌉ else ⌊q⌋

/-- Reinterpret an integer as a signed 16-bit value: reduce mod 2^16 and map
the upper half to negatives.  This is the wrapping step of JavaScript `ToInt16`
used by `Int16Array` element assignment. -/
def toInt16 (n : ℤ) : ℤ :=
  if n % 65536 < 32768 then n % 65536 else n % 65536 - 65536

/-- Source: `int16[i] = data[i] * 32768` in `createBlob`
(`src/services/geminiService.ts`).  Scales a float sample by 32768 and stores
it into an `Int16Array` slot (truncate toward zero, wrap to 16 bits). -/
def encodeSample (q : ℚ) : ℤ := toInt16 (truncQ (q * 32768))

/-- Little-endian byte serialization of one `Int16Array` element, as exposed by
viewing the array's buffer through `new Uint8Array(int16.buffer)`. -/
def bytesOfInt16 (n : ℤ) : List ℕ :=
  let m := (n % 65536).toNat
  [m % 256, m / 256]

/-- One element of `new Int16Array(data.buffer)`: the signed 16-bit value of the
little-endian pair `(lo, hi)`. -/
def int16OfBytes (lo hi : ℕ) : ℤ := toInt16 ((lo : ℤ) + 256 * hi)

/-- The whole `Int16Array` view of a byte buffer (little-endian pairs).  A
trailing odd byte cannot occur on the success path because the view
construction requires an even byte length. -/
def bytesToInt16s : List ℕ → List ℤ
  | lo :: hi :: rest => int16OfBytes lo hi :: bytesToInt16s rest
  | _ => []

/-- Serialization of an `Int16Array` into its underlying bytes
(`new Uint8Array(int16.buffer)`). -/
def int16sToBytes : List ℤ → List ℕ
  | [] => []
  | n :: rest => bytesOfInt16 n ++ int16sToBytes rest

/-- A transport blob as produced by `createBlob`: base64 payload (kept here as
the raw byte list, since `btoa`/`atob` invert exactly) plus MIME type. -/
structure PcmBlob where
  data : List ℕ
  mimeType : String
deriving DecidableEq

/-- Byte payload of `createBlob` (`src/services/geminiService.ts` 346-356):
scale each sample by 32768 into an `Int16Array`, then serialize little-endian. -/
def createBlobBytes (data : List ℚ) : List ℕ :=
  int16sToBytes (data.map encodeSample)

/-- Source: `createBlob` (`src/services/geminiService.ts` 346-356). -/
def createBlob (data : List ℚ) : PcmBlob :=
  { data := createBlobBytes data
    mimeType := "audio/pcm;rate=16000" }

/-- The ways `decodeAudioData` can throw: `new Int16Array(buffer)` throws a
`RangeError` when the byte length is odd; `ctx.createBuffer` throws a
`NotSupportedError` when an argument is outside its nominal range — a channel
count above the host's supported maximum, or a zero frame count (e.g. empty
payload, or more channels than samples). -/
inductive AudioDecodeError where
  | rangeError
  | notSupportedError
deriving DecidableEq

/-- The `createBuffer` channel-count cap of the host: the Web Audio
`numberOfChannels` nominal range is 1 to the supported maximum, and every
major browser supports exactly 32. -/
def maxChannelCount : ℕ := 32

/-- Source: `decodeAudioData` (`src/services/geminiService.ts` 327-344).
Views the bytes as an `Int16Array` (throws on odd byte length), computes
`frameCount = dataInt16.length / numChannels` (the WebIDL conversion of a
fractional count truncates, and out-of-range channel writes are ignored, so
the observable frame count is the floor), creates the buffer (throws on a
channel count above `maxChannelCount` and on a zero frame count — a zero
channel count yields a zero frame count here, matching the host throw) and
de-interleaves each channel, rescaling by 1/32768.  The `ctx` and
`sampleRate` arguments do not affect the sample values and are omitted. -/
def decodeAudioData (bytes : List ℕ) (numChannels : ℕ) :
    Except AudioDecodeError (List (List ℚ)) :=
  if bytes.length % 2 ≠ 0 then
    Except.error AudioDecodeError.rangeError
  else
    let dataInt16 := bytesToInt16s bytes
    let frameCount := dataInt16.length / numChannels
    if maxChannelCount < numChannels ∨ frameCount = 0 then
      Except.error AudioDecodeError.notSupportedError
    else
      Except.ok ((List.range numChannels).map fun channel =>
        (List.range frameCount).map fun i =>
          ((dataInt16.getD (i * numChannels + channel) 0 : ℚ) / 32768))

/-! ### Retry wrapper (`withRetry`, `isRateLimitError`) -/

/-- Constant `MAX_RETRIES` (`src/services/geminiService.ts` 14). -/
def MAX_RETRIES : ℕ := 5

/-- The error shape inspected by `isRateLimitError`: optional `status`,
`httpStatus` and `message` properties. -/
structure ApiError where
  status : Option String
  httpStatus : Option ℕ
  message : Option String
deriving DecidableEq

/-- Whether the character list starting here begins with the pattern. -/
def listStartsWith : List Char → List Char → Bool
  | _, [] => true
  | [], _ :: _ => false
  | a :: as, b :: bs => a == b && listStartsWith as bs

/-- Whether the pattern occurs as a contiguous sublist (JS `String.includes`). -/
def listHasSub : List Char → List Char → Bool
  | [], pat => pat.isEmpty
  | a :: rest, pat => listStartsWith (a :: rest) pat || listHasSub rest pat

/-- JS `message.includes(pat)`. -/
def strIncludes (s pat : String) : Bool := listHasSub s.data pat.data

/-- JS `/pat/i.test(message)` for an ASCII literal pattern: case-insensitive
substring match. -/
def strIncludesCI (s pat : String) : Bool :=
  listHasSub (s.data.map Char.toLower) pat.data

/-- Source: `isRateLimitError` (`src/services/geminiService.ts` 22-32).
True on `status === 'RESOURCE_EXHAUSTED'`, `httpStatus === 429`, or a truthy
message containing `'429'` or matching `/rate limit/i`. -/
def isRateLimitError (e : ApiError) : Bool :=
  if e.status == some ("RESOURCE_EXHAUSTED") || e.httpStatus == some 429 then
    true
  else
    match e.message with
    | some msg => strIncludes msg ("429") || strIncludesCI msg ("rate limit")
    | none => false

/-- The `new Error("Max retries reached, but no error was captured.")` fallback
of `withRetry` (unreachable from the loop, kept for fidelity). -/
def defaultRetryError : ApiError :=
  { status := none
    httpStatus := none
    message := some ("Max retries reached, but no error was captured.") }

/-- Loop body of `withRetry` (`src/services/geminiService.ts` 41-64), starting
at iteration `attempt` with the last caught error.  The call at each attempt is
given by `calls`; the result is paired with the total number of invocations
made (the backoff delay has no observable effect on the result and is not
modelled). -/
def withRetryGo {α : Type} (calls : ℕ → Except ApiError α)
    (attempt : ℕ) (lastError : Option ApiError) : Except ApiError α × ℕ :=
  if _h : attempt < MAX_RETRIES then
    match calls attempt with
    | Except.ok v => (Except.ok v, attempt + 1)
    | Except.error e =>
      if isRateLimitError e then withRetryGo calls (attempt + 1) (some e)
      else (Except.error e, attempt + 1)
  else
    (Except.error (lastError.getD defaultRetryError), attempt)
termination_by MAX_RETRIES - attempt
decreasing_by omega

/-- Source: `withRetry` (`src/services/geminiService.ts` 41-64). -/
def withRetry {α : Type} (calls : ℕ → Except ApiError α) :
    Except ApiError α × ℕ :=
  withRetryGo calls 0 none


/-! ### System instruction assembly (`startLiveSession`) -/

/-- Source: `UserProfile` (`src/types.ts`). -/
structure UserProfile where
  skinType : String
  allergies : List String
  goals : String
deriving DecidableEq

/-- Source: `MedicalQuestionnaireData` (`src/types.ts`).  The optional string
fields are modelled as strings where the empty string stands for an absent or
empty (hence JS-falsy) field, matching every truthiness test in the source. -/
structure MedicalQuestionnaireData where
  medicalHistory : String
  currentMedications : String
  concomitantMedications : String
  signsSymptoms : String
  labWork : String
  recentVaccinations : String
deriving DecidableEq

/-- Source: base persona string of `startLiveSession`
(`src/services/geminiService.ts` 373). -/
def basePersona : String :=
  "You are DermaGenius, a friendly and knowledgeable AI skincare assistant. Your goal is to provide helpful, safe, and informative advice on skincare. You are not a medical professional. Always remind users to consult a dermatologist for serious medical conditions. Be encouraging and positive in your tone."

/-- Source: the profile tailoring segment appended by `startLiveSession`
(`src/services/geminiService.ts` 376), including the
`allergies.join(', ') || 'None'` fallback. -/
def profileSegment (p : UserProfile) : String :=
  "\n\nUser Profile: Skin Type: " ++ p.skinType ++ ". Known Allergies: "
    ++ (if (String.intercalate (", ") p.allergies).isEmpty then "None"
        else String.intercalate (", ") p.allergies)
    ++ ". Skincare Goals: " ++ p.goals ++ ". Tailor advice to this profile."

/-- Source: the `medicalContext` array built by `startLiveSession`
(`src/services/geminiService.ts` 379-385): one labelled entry per truthy field,
in field order. -/
def medicalContextList (m : MedicalQuestionnaireData) : List String :=
  (if m.medicalHistory.isEmpty then [] else
    ["Medical History: " ++ m.medicalHistory])
  ++ (if m.currentMedications.isEmpty then [] else
    ["Current Medications: " ++ m.currentMedications])
  ++ (if m.concomitantMedications.isEmpty then [] else
    ["Concomitant Medications: " ++ m.concomitantMedications])
  ++ (if m.signsSymptoms.isEmpty then [] else
    ["Signs & Symptoms: " ++ m.signsSymptoms])
  ++ (if m.labWork.isEmpty then [] else
    ["Lab Work: " ++ m.labWork])
  ++ (if m.recentVaccinations.isEmpty then [] else
    ["Recent Vaccinations: " ++ m.recentVaccinations])

/-- Source: the medical-context caveat appended by `startLiveSession`
(`src/services/geminiService.ts` 387). -/
def medicalSegment (m : MedicalQuestionnaireData) : String :=
  "\n\nUser Medical Context: " ++ String.intercalate ("; ") (medicalContextList m)
    ++ ". Keep this in mind for all advice, especially regarding safety, interactions, and contraindications."

/-- Whether the medical data has at least one non-empty field (the condition
`medicalContext.length > 0` of the source, stated directly on the fields). -/
def medicalPresent (m : MedicalQuestionnaireData) : Bool :=
  !m.medicalHistory.isEmpty || !m.currentMedications.isEmpty
    || !m.concomitantMedications.isEmpty || !m.signsSymptoms.isEmpty
    || !m.labWork.isEmpty || !m.recentVaccinations.isEmpty

/-- Source: the sequential `systemInstruction` assembly of `startLiveSession`
(`src/services/geminiService.ts` 373-389): start from the base persona, append
the profile segment when a profile is given, then append the medical segment
when the built context list is non-empty. -/
def systemInstructionOf (userProfile : Option UserProfile)
    (medicalData : Option MedicalQuestionnaireData) : String :=
  let s := basePersona
  let s := match userProfile with
    | some p => s ++ profileSegment p
    | none => s
  match medicalData with
  | some m => if (medicalContextList m).length > 0 then s ++ medicalSegment m else s
  | none => s

/-! ### Chat screen live-session state machine -/

/-- Source: `ChatRole` (`src/types.ts`). -/
inductive ChatRole where
  | user
  | model
deriving DecidableEq

/-- One finalized message of the conversation log. -/
structure ChatMsg where
  role : ChatRole
  text : String
deriving DecidableEq

/-- The chat screen's live-session state: `useState` values
(`micStream`, `audioInputProcessor`, `liveSession`, `isListening`,
`currentInputTranscription`, `currentOutputTranscription`, `chatHistory`,
`sessionError`) and `useRef` cells (`audioSourcesRef` as the list of currently
scheduled source-node ids plus a fresh-id counter, `nextStartTimeRef`).
`stoppedSources` instruments the `source.stop()` calls issued. -/
structure LiveState where
  micStream : Bool
  audioProcessor : Bool
  liveSession : Option ℕ
  isListening : Bool
  curInput : String
  curOutput : String
  chatHistory : List ChatMsg
  activeSources : List ℕ
  stoppedSources : List ℕ
  nextSourceId : ℕ
  nextStartTime : ℚ
  sessionError : Option String
deriving DecidableEq

/-- The state of the screen before any live session: everything idle. -/
def initLiveState : LiveState :=
  { micStream := false
    audioProcessor := false
    liveSession := none
    isListening := false
    curInput := ""
    curOutput := ""
    chatHistory := []
    activeSources := []
    stoppedSources := []
    nextSourceId := 0
    nextStartTime := 0
    sessionError := none }

/-- The `useState` values closed over by the handlers that `startMic` creates
(the `onaudioprocess` tap and the turn-complete callback).  React state
variables are per-render constants, so these stay frozen at their values from
the render in which `startMic` ran, no matter how the state evolves later. -/
structure SessionClosures where
  capturedSession : Option ℕ
  capturedInput : String
  capturedOutput : String
deriving DecidableEq

/-- Capture of the closure environment at the moment `startMic` executes. -/
def mkClosures (s : LiveState) : SessionClosures :=
  { capturedSession := s.liveSession
    capturedInput := s.curInput
    capturedOutput := s.curOutput }

/-- Source: the playback scheduling steps of the audio-delta branch
(chat screen `startMic` `onmessage`):
`nextStartTimeRef.current = Math.max(nextStartTimeRef.current, audioCtx.currentTime)`,
`sourceNode.start(nextStartTimeRef.current)`,
`nextStartTimeRef.current += audioBuffer.duration`.
Returns the scheduled start time and the new next-available time. -/
def enqueueSched (next now dur : ℚ) : ℚ × ℚ :=
  (max next now, max next now + dur)

/-- Source: the `interrupted` branch of the chat screen `onmessage`
(stop every scheduled source, clear the active set, reset the playback clock
to zero). -/
def interruptAll (s : LiveState) : LiveState :=
  { s with
    stoppedSources := s.stoppedSources ++ s.activeSources
    activeSources := []
    nextStartTime := 0 }

/-- Source: the turn-complete callback passed by `startMic` to
`startLiveSession` (chat screen, `startMic` fifth argument).  The guard and the
pushed texts use the `currentInputTranscription` / `currentOutputTranscription`
values captured by the closure (`cl`), while the history push and the resets
use functional state updates. -/
def commitTurn (cl : SessionClosures) (s : LiveState) : LiveState :=
  let s' :=
    if !cl.capturedInput.isEmpty || !cl.capturedOutput.isEmpty then
      { s with chatHistory := s.chatHistory
          ++ (if !cl.capturedInput.isEmpty then
                [{ role := ChatRole.user, text := cl.capturedInput }] else [])
          ++ (if !cl.capturedOutput.isEmpty then
                [{ role := ChatRole.model, text := cl.capturedOutput }] else []) }
    else s
  { s' with curInput := "", curOutput := "" }

/-- A live server message as dispatched to the `onmessage` callbacks:
optional output/input transcription deltas, the turn-complete flag, an
optional inline audio payload (bytes, after base64 decode) and the
interrupted flag. -/
structure ServerMessage where
  outputTranscription : Option String
  inputTranscription : Option String
  turnComplete : Bool
  audioData : Option (List ℕ)
  interrupted : Bool
deriving DecidableEq

/-- Combined inbound message handling: first the wrapper installed by
`startLiveSession` (`src/services/geminiService.ts` 395-408) appends
transcription deltas via functional updates and fires the turn-complete
callback, then the chat screen's `onmessage` runs.  On an audio payload the
source first clamps the playback clock
(`nextStartTimeRef.current = Math.max(nextStartTimeRef.current, audioCtx.currentTime)`,
the first component of `enqueueSched`) and only then awaits the decode
(24 kHz mono): a decode throw rejects that async callback after the clamp,
skipping the rest of its body (the scheduling, the clock advance — the second
component of `enqueueSched` — and the `interrupted` branch) without touching
any other state.  Otherwise playback is scheduled and the `interrupted`
branch may flush it.  `now` is `audioCtx.currentTime` at dispatch. -/
def handleMessage (cl : SessionClosures) (now : ℚ) (m : ServerMessage)
    (s : LiveState) : LiveState :=
  let s1 := match m.outputTranscription with
    | some t => { s with curOutput := s.curOutput ++ t }
    | none => s
  let s2 := match m.inputTranscription with
    | some t => { s1 with curInput := s1.curInput ++ t }
    | none => s1
  let s3 := if m.turnComplete then commitTurn cl s2 else s2
  match m.audioData with
  | some bytes =>
    let dur : ℚ := ((bytes.length / 2 : ℕ) : ℚ) / 24000
    let sched := enqueueSched s3.nextStartTime now dur
    let s4 := { s3 with nextStartTime := sched.1 }
    match decodeAudioData bytes 1 with
    | Except.error _ => s4
    | Except.ok _ =>
      let s5 := { s4 with
        nextStartTime := sched.2
        activeSources := s4.activeSources ++ [s4.nextSourceId]
        nextSourceId := s4.nextSourceId + 1 }
      if m.interrupted then interruptAll s5 else s5
  | none => if m.interrupted then interruptAll s3 else s3

/-- Source: `stopMic` (chat screen).  Stops mic tracks, disconnects the tap,
closes the session, stops and clears all scheduled sources, resets the
transcription accumulators, the listening flag and the playback clock.
It performs no throwing operation, so it is modelled as a total function. -/
def stopMic (s : LiveState) : LiveState :=
  { micStream := false
    audioProcessor := false
    liveSession := none
    isListening := false
    curInput := ""
    curOutput := ""
    chatHistory := s.chatHistory
    activeSources := []
    stoppedSources := s.stoppedSources ++ s.activeSources
    nextSourceId := s.nextSourceId
    nextStartTime := 0
    sessionError := s.sessionError }

/-- The idle condition for the live subsystem: no device, no tap, no session,
not listening, accumulators empty, no scheduled audio, playback clock zero. -/
def IsIdle (s : LiveState) : Prop :=
  s.micStream = false ∧ s.audioProcessor = false ∧ s.liveSession = none
    ∧ s.isListening = false ∧ s.curInput = "" ∧ s.curOutput = ""
    ∧ s.activeSources = [] ∧ s.nextStartTime = 0

/-- The externally observable events of one live-session run, dispatched by
the host event loop. -/
inductive LiveEvent where
  | audioTick (frame : List ℚ)
  | sessionOpen (sid : ℕ)
  | serverMessage (now : ℚ) (m : ServerMessage)
deriving DecidableEq

/-- One event dispatch.  `audioTick` is the `onaudioprocess` tap created by
`startMic`: it forwards the encoded frame only when the *captured* session
reference is non-null (`if (liveSession) processAudioChunk(...)`); the
forwarded blobs are returned as outputs.  `sessionOpen` is the resolution of
`startLiveSession` plus its `onopen` callback (`setLiveSession(session)`,
`setIsListening(true)`).  `serverMessage` dispatches `handleMessage`. -/
def stepEvent (cl : SessionClosures) (s : LiveState) :
    LiveEvent → LiveState × List PcmBlob
  | LiveEvent.audioTick frame =>
      (s, match cl.capturedSession with
          | some _ => [createBlob frame]
          | none => [])
  | LiveEvent.sessionOpen sid =>
      ({ s with liveSession := some sid, isListening := true }, [])
  | LiveEvent.serverMessage now m => (handleMessage cl now m s, [])

/-- Run a list of events, collecting the frames forwarded to the session. -/
def runEvents (cl : SessionClosures) :
    List LiveEvent → LiveState → LiveState × List PcmBlob
  | [], s => (s, [])
  | e :: rest, s =>
      let r := stepEvent cl s e
      let r' := runEvents cl rest r.1
      (r'.1, r.2 ++ r'.2)

/-! ### Claim statements quoted for refutation -/

/-- Claim C1 as stated: for every 4096-sample buffer with samples in the
closed interval [-1, 1], decoding the encoding reconstructs every sample to
within 1/32768. -/
def c1ClaimStatement : Prop :=
  ∀ b : List ℚ, b.length = 4096 → (∀ q ∈ b, -1 ≤ q ∧ q ≤ 1) →
    ∃ ch : List ℚ, decodeAudioData (createBlobBytes b) 1 = Except.ok [ch]
      ∧ ch.length = 4096
      ∧ ∀ i, i < 4096 → |ch.getD i 0 - b.getD i 0| ≤ 1 / 32768

/-- Claim C6 as stated: decoding fails exactly when the byte length is not
divisible by `2 × channelCount`. -/
def c6ClaimStatement : Prop :=
  ∀ (bytes : List ℕ) (numChannels : ℕ), 1 ≤ numChannels →
    ((∃ e, decodeAudioData bytes numChannels = Except.error e)
      ↔ ¬ (2 * numChannels ∣ bytes.length))

/-! ### General lemmas -/
theorem toInt16_eq_self {n : ℤ} (h1 : -32768 ≤ n) (h2 : n ≤ 32767) :
    toInt16 n = n := by
  unfold toInt16
  omega

theorem toInt16_range (n : ℤ) : -32768 ≤ toInt16 n ∧ toInt16 n ≤ 32767 := by
  unfold toInt16
  omega

theorem int16OfBytes_bytesOfInt16 (n : ℤ) :
    int16OfBytes ((n % 65536).toNat % 256) ((n % 65536).toNat / 256) = toInt16 n := by
  unfold int16OfBytes toInt16
  omega

/-- Parsing the serialization of an `Int16Array` recovers the (wrapped) values. -/
theorem bytesToInt16s_int16sToBytes (xs : List ℤ) :
    bytesToInt16s (int16sToBytes xs) = xs.map toInt16 := by
  induction xs with
  | nil => rfl
  | cons n rest ih =>
      simp only [int16sToBytes, bytesOfInt16, List.map_cons]
      show bytesToInt16s (_ :: _ :: int16sToBytes rest) = _
      rw [bytesToInt16s, ih, int16OfBytes_bytesOfInt16]

theorem int16sToBytes_length (xs : List ℤ) :
    (int16sToBytes xs).length = 2 * xs.length := by
  induction xs with
  | nil => rfl
  | cons n rest ih =>
      simp [int16sToBytes, bytesOfInt16, ih]
      omega

theorem bytesToInt16s_length (bytes : List ℕ) :
    (bytesToInt16s bytes).length = bytes.length / 2 := by
  have H : ∀ k (l : List ℕ), l.length ≤ k → (bytesToInt16s l).length = l.length / 2 := by
    intro k
    induction k with
    | zero =>
        intro l hl
        have : l = [] := List.eq_nil_of_length_eq_zero (by omega)
        simp [this, bytesToInt16s]
    | succ k ih =>
        intro l hl
        match l with
        | [] => simp [bytesToInt16s]
        | [a] => simp [bytesToInt16s]
        | lo :: hi :: rest =>
            rw [bytesToInt16s]
            simp only [List.length_cons]
            rw [ih rest (by simp at hl; omega)]
            omega
  exact H bytes.length bytes le_rfl


theorem withRetryGo_count_le {α : Type} (calls : ℕ → Except ApiError α) :
    ∀ k attempt lastError, attempt ≤ MAX_RETRIES → MAX_RETRIES - attempt ≤ k →
      (withRetryGo calls attempt lastError).2 ≤ MAX_RETRIES := by
  intro k
  induction k with
  | zero =>
      intro attempt lastError hle hk
      have : attempt = MAX_RETRIES := by omega
      rw [withRetryGo]
      simp [this]
  | succ k ih =>
      intro attempt lastError hle hk
      rw [withRetryGo]
      split
      · rename_i hlt
        match hc : calls attempt with
        | Except.ok v => simp; omega
        | Except.error e =>
            simp only
            split
            · exact ih (attempt + 1) (some e) (by omega) (by omega)
            · simp; omega
      · simp; omega

theorem withRetryGo_first_ok {α : Type} (calls : ℕ → Except ApiError α)
    (k : ℕ) (v : α) (hk : k < MAX_RETRIES) (hok : calls k = Except.ok v) :
    ∀ n attempt lastError, k - attempt = n → attempt ≤ k →
      (∀ j, attempt ≤ j → j < k →
        ∃ e, calls j = Except.error e ∧ isRateLimitError e = true) →
      withRetryGo calls attempt lastError = (Except.ok v, k + 1) := by
  intro n
  induction n with
  | zero =>
      intro attempt lastError hn hle _
      have : attempt = k := by omega
      subst this
      rw [withRetryGo]
      simp [hk, hok]
  | succ n ih =>
      intro attempt lastError hn hle hrl
      have hak : attempt < k := by omega
      obtain ⟨e, he, herl⟩ := hrl attempt le_rfl hak
      rw [withRetryGo]
      simp only [dif_pos (show attempt < MAX_RETRIES by omega), he, herl, if_pos]
      exact ih (attempt + 1) (some e) (by omega) (by omega)
        (fun j hj hjk => hrl j (by omega) hjk)

theorem withRetryGo_first_fatal {α : Type} (calls : ℕ → Except ApiError α)
    (k : ℕ) (e : ApiError) (hk : k < MAX_RETRIES)
    (herr : calls k = Except.error e) (hnotrl : isRateLimitError e = false) :
    ∀ n attempt lastError, k - attempt = n → attempt ≤ k →
      (∀ j, attempt ≤ j → j < k →
        ∃ e', calls j = Except.error e' ∧ isRateLimitError e' = true) →
      withRetryGo calls attempt lastError = (Except.error e, k + 1) := by
  intro n
  induction n with
  | zero =>
      intro attempt lastError hn hle _
      have : attempt = k := by omega
      subst this
      rw [withRetryGo]
      simp [hk, herr, hnotrl]
  | succ n ih =>
      intro attempt lastError hn hle hrl
      have hak : attempt < k := by omega
      obtain ⟨e', he', herl'⟩ := hrl attempt le_rfl hak
      rw [withRetryGo]
      simp only [dif_pos (show attempt < MAX_RETRIES by omega), he', herl', if_pos]
      exact ih (attempt + 1) (some e') (by omega) (by omega)
        (fun j hj hjk => hrl j (by omega) hjk)

theorem withRetryGo_exhausted {α : Type} (calls : ℕ → Except ApiError α)
    (e : ApiError) (hlast : calls (MAX_RETRIES - 1) = Except.error e) :
    ∀ n attempt lastError, MAX_RETRIES - attempt = n → attempt < MAX_RETRIES →
      (∀ j, attempt ≤ j → j < MAX_RETRIES →
        ∃ e', calls j = Except.error e' ∧ isRateLimitError e' = true) →
      withRetryGo calls attempt lastError = (Except.error e, MAX_RETRIES) := by
  intro n
  induction n with
  | zero =>
      intro attempt lastError hn hlt _
      omega
  | succ n ih =>
      intro attempt lastError hn hlt hrl
      obtain ⟨e', he', herl'⟩ := hrl attempt le_rfl hlt
      rw [withRetryGo]
      simp only [dif_pos hlt, he', herl', if_pos]
      rcases Nat.lt_or_ge (attempt + 1) MAX_RETRIES with hnext | hnext
      · exact ih (attempt + 1) (some e') (by omega) hnext
          (fun j hj hjk => hrl j (by omega) hjk)
      · have hattempt : attempt = MAX_RETRIES - 1 := by omega
        have : e' = e := by
          rw [hattempt] at he'
          rw [hlast] at he'
          exact (Except.error.injEq _ _).mp he'.symm
        subst this
        rw [withRetryGo]
        simp only [dif_neg (show ¬ attempt + 1 < MAX_RETRIES by omega)]
        simp [Option.getD]
        omega

theorem range_map_getD {α β : Type} (l : List α) (f : α → β) (d : α) :
    (List.range l.length).map (fun i => f (l.getD i d)) = l.map f := by
  induction l with
  | nil => simp
  | cons a t ih =>
      rw [List.length_cons, List.range_succ_eq_map, List.map_cons, List.map_map]
      exact congrArg (fun xs => f a :: xs) ih

theorem encodeSample_eq_truncQ {q : ℚ} (h1 : -1 ≤ q) (h2 : q < 1) :
    encodeSample q = truncQ (q * 32768)
      ∧ -32768 ≤ truncQ (q * 32768) ∧ truncQ (q * 32768) ≤ 32767
      ∧ |(truncQ (q * 32768) : ℚ) - q * 32768| ≤ 1 := by
  have hx1 : -32768 ≤ q * 32768 := by nlinarith
  have hx2 : q * 32768 < 32768 := by nlinarith
  have htr : -32768 ≤ truncQ (q * 32768) ∧ truncQ (q * 32768) ≤ 32767
      ∧ |(truncQ (q * 32768) : ℚ) - q * 32768| ≤ 1 := by
    unfold truncQ
    split
    · rename_i hneg
      have hle : q * 32768 ≤ (⌈q * 32768⌉ : ℚ) := Int.le_ceil _
      have hlt : (⌈q * 32768⌉ : ℚ) < q * 32768 + 1 := Int.ceil_lt_add_one _
      have hc0 : ⌈q * 32768⌉ ≤ 0 := by
        rw [show (0 : ℤ) = ⌈(0 : ℚ)⌉ by simp]
        exact Int.ceil_le_ceil (le_of_lt hneg)
      have hcl : -32768 ≤ ⌈q * 32768⌉ := by
        have : ((-32768 : ℤ) : ℚ) ≤ (⌈q * 32768⌉ : ℚ) := by
          push_cast
          linarith
        exact_mod_cast this
      refine ⟨hcl, by omega, ?_⟩
      rw [abs_le]
      constructor <;> linarith
    · rename_i hpos
      have hle : (⌊q * 32768⌋ : ℚ) ≤ q * 32768 := Int.floor_le _
      have hlt : q * 32768 < (⌊q * 32768⌋ : ℚ) + 1 := Int.lt_floor_add_one _
      have hf0 : 0 ≤ ⌊q * 32768⌋ := by
        rw [show (0 : ℤ) = ⌊(0 : ℚ)⌋ by simp]
        exact Int.floor_le_floor (by linarith)
      have hfu : ⌊q * 32768⌋ < 32768 := by
        rw [Int.floor_lt]
        push_cast
        linarith
      refine ⟨by omega, by omega, ?_⟩
      rw [abs_le]
      constructor <;> linarith
  refine ⟨?_, htr⟩
  unfold encodeSample
  exact toInt16_eq_self htr.1 htr.2.1

theorem encodeSample_quantization {q : ℚ} (h1 : -1 ≤ q) (h2 : q < 1) :
    |((encodeSample q : ℚ) / 32768) - q| ≤ 1 / 32768 := by
  obtain ⟨heq, _, _, hq⟩ := encodeSample_eq_truncQ h1 h2
  rw [heq]
  have hrw : ((truncQ (q * 32768) : ℚ) / 32768) - q
      = ((truncQ (q * 32768) : ℚ) - q * 32768) / 32768 := by
    field_simp
    ring
  rw [hrw, abs_div, abs_of_pos (show (0 : ℚ) < 32768 by norm_num)]
  exact (div_le_div_iff_of_pos_right (by norm_num)).mpr hq

theorem decodeAudioData_createBlobBytes (b : List ℚ) (hb : b ≠ []) :
    decodeAudioData (createBlobBytes b) 1
      = Except.ok [b.map fun q => ((encodeSample q : ℚ) / 32768)] := by
  have hparse : bytesToInt16s (createBlobBytes b) = b.map encodeSample := by
    unfold createBlobBytes
    rw [bytesToInt16s_int16sToBytes, List.map_map]
    apply List.map_congr_left
    intro q _
    exact toInt16_eq_self (toInt16_range _).1 (toInt16_range _).2
  have hlen : (createBlobBytes b).length = 2 * b.length := by
    unfold createBlobBytes
    rw [int16sToBytes_length, List.length_map]
  have hbl : ¬ b.length = 0 := fun h => hb (List.eq_nil_of_length_eq_zero h)
  unfold decodeAudioData
  rw [if_neg (by rw [hlen]; omega)]
  simp only [hparse, List.length_map, Nat.div_one]
  rw [if_neg (by
    push_neg
    exact ⟨by norm_num [maxChannelCount], hbl⟩)]
  have hr1 : List.range 1 = [0] := rfl
  rw [hr1, List.map_cons, List.map_nil]
  simp only [mul_one, add_zero]
  rw [show b.length = (b.map encodeSample).length from (List.length_map b encodeSample).symm,
    range_map_getD (b.map encodeSample) (fun z => ((z : ℚ) / 32768)) 0,
    List.map_map]
  rfl

theorem strAppendEmpty (s : String) : s ++ ("") = s := by
  cases s with
  | mk d =>
      show String.mk (d ++ []) = String.mk d
      rw [List.append_nil]

theorem medicalContextList_pos_iff (m : MedicalQuestionnaireData) :
    0 < (medicalContextList m).length ↔ medicalPresent m = true := by
  unfold medicalContextList medicalPresent
  cases h1 : m.medicalHistory.isEmpty
    <;> cases h2 : m.currentMedications.isEmpty
    <;> cases h3 : m.concomitantMedications.isEmpty
    <;> cases h4 : m.signsSymptoms.isEmpty
    <;> cases h5 : m.labWork.isEmpty
    <;> cases h6 : m.recentVaccinations.isEmpty
    <;> simp [h1, h2, h3, h4, h5, h6]

theorem getD_replicate_zero {α : Type} (n : ℕ) (x d : α) (h : 0 < n) :
    (List.replicate n x).getD 0 d = x := by
  cases n with
  | zero => omega
  | succ k => rw [List.replicate_succ, List.getD_cons_zero]

theorem encodeSample_one : encodeSample 1 = -32768 := by
  have htr : truncQ ((1 : ℚ) * 32768) = 32768 := by
    unfold truncQ
    rw [if_neg (by norm_num)]
    rw [show ((1 : ℚ) * 32768) = ((32768 : ℤ) : ℚ) by norm_num, Int.floor_intCast]
  unfold encodeSample
  rw [htr]
  unfold toInt16
  decide

/-- C1 as stated is false on the code: the sample value 1.0 is allowed by the
claim, but `int16[i] = data[i] * 32768` wraps 32768 to -32768, so the
reconstructed value is -1.0, off by 2 > 1/32768.  Concrete input: the 4096-long
buffer of all 1.0 samples. -/
theorem c1_counterexample : ¬ c1ClaimStatement := by
  intro h
  obtain ⟨ch, hok, hlen, hbound⟩ := h (List.replicate 4096 1)
    (by rw [List.length_replicate])
    (by
      intro q hq
      rw [List.eq_of_mem_replicate hq]
      norm_num)
  have hok' : decodeAudioData (createBlobBytes (List.replicate 4096 (1 : ℚ))) 1
      = Except.ok [List.replicate 4096 (-1 : ℚ)] := by
    rw [decodeAudioData_createBlobBytes _ (by
      intro hnil
      have h' := congrArg List.length hnil
      rw [List.length_replicate, List.length_nil] at h'
      omega), List.map_replicate]
    rw [encodeSample_one]
    norm_num
  rw [hok'] at hok
  have hch : ch = List.replicate 4096 (-1 : ℚ) := by
    have := (Except.ok.injEq _ _).mp hok
    exact (List.cons.injEq _ _ _ _).mp this |>.1 |>.symm
  have h0 := hbound 0 (by norm_num)
  rw [hch, getD_replicate_zero _ _ _ (by norm_num),
    getD_replicate_zero _ _ _ (by norm_num)] at h0
  norm_num at h0

/-- C1 (amended): for every 4096-sample buffer whose samples lie in the
half-open interval [-1, 1), decoding the encoding yields a single-channel
buffer of the same length whose samples differ from the input by at most
1/32768.  (At exactly 1.0 the 16-bit conversion wraps and the bound fails,
which is what the counterexample exhibits.) -/
theorem c1_roundtrip_amended :
    ∀ b : List ℚ, b.length = 4096 → (∀ q ∈ b, -1 ≤ q ∧ q < 1) →
      ∃ ch : List ℚ, decodeAudioData (createBlobBytes b) 1 = Except.ok [ch]
        ∧ ch.length = 4096
        ∧ ∀ i, i < 4096 → |ch.getD i 0 - b.getD i 0| ≤ 1 / 32768 := by
  intro b hlen hbound
  refine ⟨b.map (fun q => ((encodeSample q : ℚ) / 32768)), ?_, ?_, ?_⟩
  · exact decodeAudioData_createBlobBytes b
      (fun h => by rw [h] at hlen; simp at hlen)
  · rw [List.length_map, hlen]
  · intro i hi
    have hib : i < b.length := by omega
    rw [List.getD_eq_getElem _ _ (by rw [List.length_map]; omega),
      List.getElem_map, List.getD_eq_getElem _ _ hib]
    have hmem : b[i] ∈ b := List.getElem_mem hib
    exact encodeSample_quantization (hbound _ hmem).1 (hbound _ hmem).2

/-- Concrete instance of the amended C1 at the all-zero 4096-sample buffer. -/
theorem c1_roundtrip_amended_witness :
    ∃ ch : List ℚ,
      decodeAudioData (createBlobBytes (List.replicate 4096 0)) 1 = Except.ok [ch]
        ∧ ch.length = 4096
        ∧ ∀ i, i < 4096 →
            |ch.getD i 0 - (List.replicate 4096 (0 : ℚ)).getD i 0| ≤ 1 / 32768 :=
  c1_roundtrip_amended (List.replicate 4096 0) (by rw [List.length_replicate])
    (by
      intro q hq
      rw [List.eq_of_mem_replicate hq]
      norm_num)

/-- C6 as stated is false on the code: divisibility by `2 × channelCount` is
not what the code checks.  Concrete input: a 6-byte payload with channelCount
2 — 6 is not divisible by 4, yet `decodeAudioData` succeeds (the fractional
frame count is truncated to 1 frame per channel). -/
theorem c6_counterexample : ¬ c6ClaimStatement := by
  intro h
  obtain ⟨e, he⟩ := (h [0, 0, 0, 0, 0, 0] 2 (by norm_num)).mpr (by
    rw [show ([0, 0, 0, 0, 0, 0] : List ℕ).length = 6 from rfl]
    omega)
  have hok : decodeAudioData [0, 0, 0, 0, 0, 0] 2 = Except.ok [[0], [0]] := by
    norm_num [decodeAudioData, maxChannelCount, bytesToInt16s, int16OfBytes,
      toInt16, List.range_succ]
  rw [hok] at he
  simp at he

/-- C6 (amended): `decodeAudioData` fails exactly when the byte length is odd
(`RangeError` from the 16-bit view), or the channel count exceeds the host's
`createBuffer` cap of 32, or the payload yields zero whole frames, i.e.
`byteLength / 2 / channelCount = 0` as in an empty payload (both
`NotSupportedError` from `createBuffer`); divisibility by `2 × channelCount`
is not required.  The claim's concrete cases stand: a 3-byte payload with one
channel fails and a 4-byte payload with one channel yields two samples. -/
theorem c6_failure_iff_amended :
    (∀ (bytes : List ℕ) (numChannels : ℕ),
      (∃ e, decodeAudioData bytes numChannels = Except.error e)
        ↔ (bytes.length % 2 ≠ 0 ∨ maxChannelCount < numChannels
            ∨ bytes.length / 2 / numChannels = 0))
    ∧ decodeAudioData [0, 0, 0] 1 = Except.error AudioDecodeError.rangeError
    ∧ decodeAudioData [0, 0, 0, 0] 1 = Except.ok [[0, 0]] := by
  refine ⟨?_, by norm_num [decodeAudioData], ?_⟩
  case refine_2 =>
    norm_num [decodeAudioData, maxChannelCount, bytesToInt16s, int16OfBytes,
      toInt16, List.range_succ]
  intro bytes nc
  simp only [decodeAudioData, bytesToInt16s_length]
  by_cases hodd : bytes.length % 2 ≠ 0
  · rw [if_pos hodd]
    constructor
    · intro _
      exact Or.inl hodd
    · intro _
      exact ⟨AudioDecodeError.rangeError, rfl⟩
  · rw [if_neg hodd]
    by_cases hns : maxChannelCount < nc ∨ bytes.length / 2 / nc = 0
    · rw [if_pos hns]
      constructor
      · intro _
        exact Or.inr hns
      · intro _
        exact ⟨AudioDecodeError.notSupportedError, rfl⟩
    · rw [if_neg hns]
      constructor
      · rintro ⟨e, he⟩
        simp at he
      · rintro (h | h)
        · exact absurd h hodd
        · exact absurd h hns

/-- C10: `withRetry` makes at most 5 invocations; a non-rate-limited error is
rethrown immediately (after the first failure); the first success is returned
(with prior failures retried only when rate-limited); and after 5 rate-limited
failures the last error is thrown. -/
theorem c10_withRetry {α : Type} (calls : ℕ → Except ApiError α) :
    (withRetry calls).2 ≤ 5
    ∧ (∀ e, calls 0 = Except.error e → isRateLimitError e = false →
        withRetry calls = (Except.error e, 1))
    ∧ (∀ k v, k < 5 → calls k = Except.ok v →
        (∀ j, j < k → ∃ e, calls j = Except.error e ∧ isRateLimitError e = true) →
        withRetry calls = (Except.ok v, k + 1))
    ∧ (∀ k e, k < 5 → calls k = Except.error e → isRateLimitError e = false →
        (∀ j, j < k → ∃ e', calls j = Except.error e' ∧ isRateLimitError e' = true) →
        withRetry calls = (Except.error e, k + 1))
    ∧ (∀ e, (∀ j, j < 5 → ∃ e', calls j = Except.error e' ∧ isRateLimitError e' = true) →
        calls 4 = Except.error e → withRetry calls = (Except.error e, 5)) := by
  refine ⟨?_, ?_, ?_, ?_, ?_⟩
  · exact withRetryGo_count_le calls MAX_RETRIES 0 none (by omega) (by omega)
  · intro e he hrl
    exact withRetryGo_first_fatal calls 0 e (by decide) he hrl 0 0 none rfl le_rfl
      (by omega)
  · intro k v hk hok hrl
    exact withRetryGo_first_ok calls k v hk hok k 0 none rfl (by omega)
      (fun j _ hjk => hrl j hjk)
  · intro k e hk he hnot hrl
    exact withRetryGo_first_fatal calls k e hk he hnot k 0 none rfl (by omega)
      (fun j _ hjk => hrl j hjk)
  · intro e hrl hlast
    exact withRetryGo_exhausted calls e hlast MAX_RETRIES 0 none rfl (by decide)
      (fun j _ hjk => hrl j hjk)

/-- Concrete instance of C10: one rate-limited failure followed by a success
returns the success after exactly two invocations. -/
theorem c10_withRetry_witness :
    withRetry (fun n => if n = 0
        then Except.error
          { status := some ("RESOURCE_EXHAUSTED"), httpStatus := none, message := none }
        else Except.ok (7 : ℕ))
      = (Except.ok 7, 2) := by
  refine (c10_withRetry _).2.2.1 1 7 (by norm_num) rfl ?_
  intro j hj
  have hj0 : j = 0 := by omega
  subst hj0
  exact ⟨_, rfl, rfl⟩

/-- C8: the live-session system instruction is exactly the base persona,
followed by the profile tailoring segment iff a user profile is present,
followed by the medical-context caveat iff medical data with at least one
non-empty field is present. -/
theorem c8_system_instruction :
    ∀ (up : Option UserProfile) (md : Option MedicalQuestionnaireData),
      systemInstructionOf up md
        = basePersona
          ++ (match up with
              | some p => profileSegment p
              | none => "")
          ++ (match md with
              | some m => if medicalPresent m then medicalSegment m else ""
              | none => "") := by
  intro up md
  cases up <;> cases md
  · simp [systemInstructionOf, strAppendEmpty]
  · rename_i m
    simp only [systemInstructionOf, gt_iff_lt, medicalContextList_pos_iff]
    by_cases hm : medicalPresent m = true <;> simp [hm, strAppendEmpty]
  · rename_i p
    simp [systemInstructionOf, strAppendEmpty]
  · rename_i p m
    simp only [systemInstructionOf, gt_iff_lt, medicalContextList_pos_iff]
    by_cases hm : medicalPresent m = true <;> simp [hm, strAppendEmpty]

/-- C7: `stopMic` is idempotent, leaves the subsystem idle with all
per-session state (accumulators, active audio sources, playback clock) reset,
preserves the conversation log, and is a no-op from an idle state.  As a total
Lean function it cannot throw. -/
theorem c7_stop_idempotent :
    ∀ s : LiveState,
      stopMic (stopMic s) = stopMic s
      ∧ IsIdle (stopMic s)
      ∧ (stopMic s).chatHistory = s.chatHistory
      ∧ (stopMic s).sessionError = s.sessionError
      ∧ (IsIdle s → stopMic s = s) := by
  intro s
  refine ⟨?_, ?_, rfl, rfl, ?_⟩
  · simp [stopMic]
  · exact ⟨rfl, rfl, rfl, rfl, rfl, rfl, rfl, rfl⟩
  · rintro ⟨h1, h2, h3, h4, h5, h6, h7, h8⟩
    cases s
    simp_all [stopMic]

/-- Concrete instance of C7: stopping from the idle initial state is a no-op. -/
theorem c7_stop_idempotent_witness : stopMic initLiveState = initLiveState :=
  (c7_stop_idempotent initLiveState).2.2.2.2
    ⟨rfl, rfl, rfl, rfl, rfl, rfl, rfl, rfl⟩

/-- C4: with the scheduling step `enqueueSched` (start at
`max(nextAvailable, now)`, advance `nextAvailable` by the duration), three
buffers that all arrive before the first one finishes are scheduled
back-to-back: each start coincides with the previous end and the final
next-available time is the first start plus `d1 + d2 + d3` — a contiguous
span with no gaps and no overlap. -/
theorem c4_gapless :
    ∀ next0 t1 t2 t3 d1 d2 d3 : ℚ,
      0 ≤ d1 → 0 ≤ d2 → 0 ≤ d3 →
      t2 ≤ (enqueueSched next0 t1 d1).2 → t3 ≤ (enqueueSched next0 t1 d1).2 →
      (enqueueSched (enqueueSched next0 t1 d1).2 t2 d2).1
          = (enqueueSched next0 t1 d1).1 + d1
      ∧ (enqueueSched (enqueueSched (enqueueSched next0 t1 d1).2 t2 d2).2 t3 d3).1
          = (enqueueSched next0 t1 d1).1 + d1 + d2
      ∧ (enqueueSched (enqueueSched (enqueueSched next0 t1 d1).2 t2 d2).2 t3 d3).2
          = (enqueueSched next0 t1 d1).1 + d1 + d2 + d3 := by
  intro next0 t1 t2 t3 d1 d2 d3 hd1 hd2 hd3 h2 h3
  simp only [enqueueSched] at h2 h3 ⊢
  have e1 : max (max next0 t1 + d1) t2 = max next0 t1 + d1 := max_eq_left h2
  have e2 : max (max next0 t1 + d1 + d2) t3 = max next0 t1 + d1 + d2 :=
    max_eq_left (by linarith)
  refine ⟨e1, ?_, ?_⟩
  · rw [e1, e2]
  · rw [e1, e2]

/-- Concrete instance of C4 with three unit-duration buffers arriving at
time 0. -/
theorem c4_gapless_witness :
    (enqueueSched (enqueueSched 0 0 1).2 0 1).1 = (enqueueSched 0 0 1).1 + 1
    ∧ (enqueueSched (enqueueSched (enqueueSched 0 0 1).2 0 1).2 0 1).1
        = (enqueueSched 0 0 1).1 + 1 + 1
    ∧ (enqueueSched (enqueueSched (enqueueSched 0 0 1).2 0 1).2 0 1).2
        = (enqueueSched 0 0 1).1 + 1 + 1 + 1 :=
  c4_gapless 0 0 0 0 1 1 1 (by norm_num) (by norm_num) (by norm_num)
    (by norm_num [enqueueSched]) (by norm_num [enqueueSched])

/-- C5: handling the `interrupted` event is exactly `interruptAll`: every
currently scheduled source receives a `stop()` call, the active set is
emptied regardless of its size, the playback clock is reset to zero, and any
subsequent enqueue starts at the device's current (non-negative) clock time
rather than the old next-available time. -/
theorem c5_interrupt :
    ∀ (cl : SessionClosures) (now : ℚ) (s : LiveState),
      handleMessage cl now
        { outputTranscription := none, inputTranscription := none,
          turnComplete := false, audioData := none, interrupted := true } s
        = interruptAll s
      ∧ (interruptAll s).activeSources = []
      ∧ (interruptAll s).nextStartTime = 0
      ∧ (∀ a ∈ s.activeSources, a ∈ (interruptAll s).stoppedSources)
      ∧ (∀ now' dur : ℚ, 0 ≤ now' →
          (enqueueSched (interruptAll s).nextStartTime now' dur).1 = now') := by
  intro cl now s
  refine ⟨rfl, rfl, rfl, ?_, ?_⟩
  · intro a ha
    simp only [interruptAll, List.mem_append]
    exact Or.inr ha
  · intro now' dur h
    simp only [interruptAll, enqueueSched]
    exact max_eq_right h

/-- Concrete instance of C5: one scheduled source is stopped, and the enqueue
after the interruption starts at the current device time 3. -/
theorem c5_interrupt_witness :
    7 ∈ (interruptAll { initLiveState with activeSources := [7] }).stoppedSources
    ∧ (enqueueSched
        (interruptAll { initLiveState with activeSources := [7] }).nextStartTime
        3 1).1 = 3 :=
  ⟨(c5_interrupt (mkClosures initLiveState) 0
      { initLiveState with activeSources := [7] }).2.2.2.1 7 (by simp),
   (c5_interrupt (mkClosures initLiveState) 0
      { initLiveState with activeSources := [7] }).2.2.2.2 3 1 (by norm_num)⟩

theorem commitTurn_scheduler_fields (cl : SessionClosures) (s : LiveState) :
    (commitTurn cl s).activeSources = s.activeSources
    ∧ (commitTurn cl s).nextStartTime = s.nextStartTime
    ∧ (commitTurn cl s).liveSession = s.liveSession
    ∧ (commitTurn cl s).isListening = s.isListening
    ∧ (commitTurn cl s).sessionError = s.sessionError := by
  simp only [commitTurn]
  split <;> exact ⟨rfl, rfl, rfl, rfl, rfl⟩

/-- The transcript part of message handling (no audio payload, no
interruption) never touches the scheduler, the session handle, the listening
flag or the surfaced error. -/
theorem handleMessage_no_audio_fields (cl : SessionClosures) (now : ℚ)
    (m : ServerMessage) (s : LiveState) (hA : m.audioData = none)
    (hI : m.interrupted = false) :
    (handleMessage cl now m s).activeSources = s.activeSources
    ∧ (handleMessage cl now m s).nextStartTime = s.nextStartTime
    ∧ (handleMessage cl now m s).liveSession = s.liveSession
    ∧ (handleMessage cl now m s).isListening = s.isListening
    ∧ (handleMessage cl now m s).sessionError = s.sessionError := by
  simp only [handleMessage, hA, hI, if_neg (by simp : ¬ (false : Bool) = true)]
  cases houtput : m.outputTranscription <;>
    cases hinput : m.inputTranscription <;>
      cases hturn : m.turnComplete <;>
        simp only [hturn, if_true, if_false] <;>
          first
            | exact ⟨rfl, rfl, rfl, rfl, rfl⟩
            | exact commitTurn_scheduler_fields cl _

/-- C9: an inbound message whose audio payload fails to decode (odd byte
length) is handled like the same message with the audio stripped, except for
the pre-decode playback-clock clamp to `max(nextStartTime, now)` that the
source performs before awaiting the decode: the async throw aborts the rest
of that callback, so no playback is scheduled, no error is surfaced, the
session state is untouched, and the subsequent `interrupted` branch of that
invocation is skipped.  The clamp itself is invisible to every later enqueue
once the device clock has moved to any `now' ≥ now` (the scheduled start is
`max` of the clock either way), so the event is observationally dropped, and
— the handler being a pure step function — all subsequent events are
processed normally. -/
theorem c9_decode_failure_dropped :
    ∀ (cl : SessionClosures) (now : ℚ) (s : LiveState) (m : ServerMessage)
      (bytes : List ℕ), m.audioData = some bytes → bytes.length % 2 = 1 →
      handleMessage cl now m s
        = { handleMessage cl now
              { m with audioData := none, interrupted := false } s
            with nextStartTime := max s.nextStartTime now }
      ∧ (handleMessage cl now m s).activeSources = s.activeSources
      ∧ (handleMessage cl now m s).sessionError = s.sessionError
      ∧ (handleMessage cl now m s).liveSession = s.liveSession
      ∧ (handleMessage cl now m s).isListening = s.isListening
      ∧ (handleMessage cl now m s).nextStartTime = max s.nextStartTime now
      ∧ (∀ now' dur : ℚ, now ≤ now' →
          enqueueSched (max s.nextStartTime now) now' dur
            = enqueueSched s.nextStartTime now' dur) := by
  intro cl now s m bytes hm hodd
  have hdec : decodeAudioData bytes 1 = Except.error AudioDecodeError.rangeError := by
    unfold decodeAudioData
    rw [if_pos (by omega)]
  obtain ⟨hact, hnext, hlive, hlisten, herr⟩ :=
    handleMessage_no_audio_fields cl now
      { m with audioData := none, interrupted := false } s rfl rfl
  have hmain : handleMessage cl now m s
      = { handleMessage cl now
            { m with audioData := none, interrupted := false } s
          with nextStartTime :=
            (max (handleMessage cl now
              { m with audioData := none, interrupted := false } s).nextStartTime
              now) } := by
    simp only [handleMessage, hm, hdec, enqueueSched]
    rfl
  rw [hnext] at hmain
  refine ⟨hmain, ?_, ?_, ?_, ?_, ?_, ?_⟩
  · rw [hmain]
    exact hact
  · rw [hmain]
    exact herr
  · rw [hmain]
    exact hlive
  · rw [hmain]
    exact hlisten
  · rw [hmain]
  · intro now' dur h
    simp only [enqueueSched]
    rw [max_assoc, max_eq_right h]

/-- Concrete instance of C9: a 3-byte audio payload at device time 5 leaves
the state unchanged except for the pre-decode clock clamp, and that clamp is
invisible to the next enqueue at time 5. -/
theorem c9_decode_failure_dropped_witness :
    handleMessage (mkClosures initLiveState) 5
      { outputTranscription := none, inputTranscription := none,
        turnComplete := false, audioData := some [0, 0, 0],
        interrupted := false } initLiveState
      = { handleMessage (mkClosures initLiveState) 5
            { outputTranscription := none, inputTranscription := none,
              turnComplete := false, audioData := none,
              interrupted := false } initLiveState
          with nextStartTime := max initLiveState.nextStartTime 5 }
    ∧ enqueueSched (max initLiveState.nextStartTime 5) 5 1
        = enqueueSched initLiveState.nextStartTime 5 1 :=
  ⟨(c9_decode_failure_dropped (mkClosures initLiveState) 5 initLiveState
      { outputTranscription := none, inputTranscription := none,
        turnComplete := false, audioData := some [0, 0, 0],
        interrupted := false } [0, 0, 0] rfl rfl).1,
   (c9_decode_failure_dropped (mkClosures initLiveState) 5 initLiveState
      { outputTranscription := none, inputTranscription := none,
        turnComplete := false, audioData := some [0, 0, 0],
        interrupted := false } [0, 0, 0] rfl rfl).2.2.2.2.2.2 5 1 le_rfl⟩

/-- C2 evaluated on the code at the claim's scenario: the session is started
from the idle state (so the turn-complete callback captures empty
accumulators), an output transcription delta "hello" arrives (the accumulator
does become "hello"), then a turn-complete event fires.  Contrary to the
claim, nothing is appended to the conversation log — the callback's guard and
pushes read the captured (empty) values — and the accumulators are cleared. -/
theorem c2_code_bug_eval :
    ((runEvents (mkClosures initLiveState)
        [LiveEvent.serverMessage 0
          { outputTranscription := some ("hello"), inputTranscription := none,
            turnComplete := false, audioData := none, interrupted := false }]
        initLiveState).1).curOutput = "hello"
    ∧ ((runEvents (mkClosures initLiveState)
        [LiveEvent.serverMessage 0
          { outputTranscription := some ("hello"), inputTranscription := none,
            turnComplete := false, audioData := none, interrupted := false },
         LiveEvent.serverMessage 0
          { outputTranscription := none, inputTranscription := none,
            turnComplete := true, audioData := none, interrupted := false }]
        initLiveState).1).chatHistory = []
    ∧ ((runEvents (mkClosures initLiveState)
        [LiveEvent.serverMessage 0
          { outputTranscription := some ("hello"), inputTranscription := none,
            turnComplete := false, audioData := none, interrupted := false },
         LiveEvent.serverMessage 0
          { outputTranscription := none, inputTranscription := none,
            turnComplete := true, audioData := none, interrupted := false }]
        initLiveState).1).curOutput = "" :=
  ⟨rfl, rfl, rfl⟩

/-- C3 evaluated on the code at the claim's scenario: three capture ticks
before the session-open resolution are dropped, and — contrary to the claim —
the tick after the open resolution is dropped as well, even though the
session is then active (`liveSession = some 1`): the `onaudioprocess` closure
tests the `liveSession` value captured when `startMic` ran, which is `none`
for the whole life of the session, so no frame is ever forwarded. -/
theorem c3_code_bug_eval :
    (runEvents (mkClosures initLiveState)
      [LiveEvent.audioTick [0], LiveEvent.audioTick [0], LiveEvent.audioTick [0],
       LiveEvent.sessionOpen 1, LiveEvent.audioTick [0]]
      initLiveState).2 = []
    ∧ (runEvents (mkClosures initLiveState)
      [LiveEvent.audioTick [0], LiveEvent.audioTick [0], LiveEvent.audioTick [0],
       LiveEvent.sessionOpen 1, LiveEvent.audioTick [0]]
      initLiveState).1.liveSession = some 1 :=
  ⟨rfl, rfl⟩
